import Mathlib

/-!
Verification of the student-score summarisation pipeline.

The repository contains two implementations of the same pipeline:
`1_imperative_summarize.py` (a row loop with mutable accumulators) and
`2_fp_summarize.py` (a pandas transform/filter/groupby pipeline).  Both
normalise a raw score field, classify it into a letter grade, and compute
mean scores overall, per class and per subject, tolerating malformed
scores.  This file embeds both implementations shallowly: Python floats
are modelled exactly (finite values as rationals, plus NaN), fallible
steps return `Except`, the pandas dataframe operations become list
operations, and the row loop becomes a monadic fold over an explicit
state.
-/

/-- Model of a CPython float value as it occurs in this pipeline: either a
finite value, represented exactly as a rational, or the special value NaN.
Infinities and binary rounding are outside the model; the source only adds
scores and divides by counts, which the rational model captures exactly. -/
inductive PyFloat where
  | finite (q : ℚ)
  | nan
deriving DecidableEq

/-- Python float addition as used by the accumulators: NaN propagates. -/
def PyFloat.add : PyFloat → PyFloat → PyFloat
  | .finite a, .finite b => .finite (a + b)
  | _, _ => .nan

/-- Python `x >= y` on floats: any comparison with NaN is false. -/
def PyFloat.ge : PyFloat → PyFloat → Bool
  | .finite a, .finite b => b ≤ a
  | _, _ => false

/-- Division of a running total by a (positive) count, for means. -/
def PyFloat.divNat : PyFloat → ℕ → PyFloat
  | .finite a, n => .finite (a / n)
  | .nan, _ => .nan

instance : Add PyFloat := ⟨PyFloat.add⟩

instance : Zero PyFloat := ⟨PyFloat.finite 0⟩

theorem pyAdd_def (a b : PyFloat) : a + b = PyFloat.add a b := rfl

theorem pyZero_def : (0 : PyFloat) = PyFloat.finite 0 := rfl

instance : AddCommMonoid PyFloat where
  add_assoc a b c := by
    cases a <;> cases b <;> cases c <;>
      simp [pyAdd_def, PyFloat.add, add_assoc]
  zero_add a := by cases a <;> simp [pyAdd_def, pyZero_def, PyFloat.add]
  add_zero a := by cases a <;> simp [pyAdd_def, pyZero_def, PyFloat.add]
  add_comm a b := by
    cases a <;> cases b <;> simp [pyAdd_def, PyFloat.add, add_comm]
  nsmul := nsmulRec

/-- The exceptions this code can raise: `float()` raises `ValueError` on
non-numeric text and `TypeError` on `None`; reading a never-assigned local
variable raises `NameError`. -/
inductive PyError where
  | valueError
  | typeError
  | nameError
deriving DecidableEq

/-- A raw CSV cell as the loader hands it to the pipeline: a string, an
already-numeric value (pandas turns empty cells into the float NaN), or
the Python value `None`. -/
inductive PyValue where
  | str (s : String)
  | flt (v : PyFloat)
  | pyNone
deriving DecidableEq

/-- The characters of `s` with surrounding whitespace removed, as
`float(str)` strips it. -/
def trimChars (s : String) : List Char :=
  ((s.toList.dropWhile Char.isWhitespace).reverse.dropWhile
    Char.isWhitespace).reverse

/-- Numeric value of a digit character. -/
def charVal (c : Char) : ℕ := c.toNat - 48

/-- Value of a digit string, most significant digit first. -/
def natOfDigits (l : List Char) : ℕ := l.foldl (fun n c => 10 * n + charVal c) 0

/-- Parse an unsigned decimal literal: digits with an optional fractional
part after one dot, at least one digit overall ("90", "59.99", "1.", ".5"). -/
def decimalOfChars (l : List Char) : Option ℚ :=
  let ip := (l.span (fun c => !(c == '.'))).1
  match (l.span (fun c => !(c == '.'))).2 with
  | [] =>
      if ip ≠ [] ∧ ip.all Char.isDigit then some (natOfDigits ip) else none
  | _ :: fp =>
      if (ip ≠ [] ∨ fp ≠ []) ∧ ip.all Char.isDigit ∧ fp.all Char.isDigit then
        some ((natOfDigits ip : ℚ) + (natOfDigits fp : ℚ) / (10 : ℚ) ^ fp.length)
      else none

/-- Model of CPython `float(str)` on the fragment this dataset exercises:
optional surrounding whitespace, an optional sign, then either the
case-insensitive special value `nan` or a decimal literal.  Exponent
notation and infinities are outside the model; every other string fails,
as `float` raises `ValueError` on non-numeric text. -/
def floatOfString (s : String) : Option PyFloat :=
  let t := trimChars s
  let signed : Bool × List Char :=
    match t with
    | '-' :: rest => (true, rest)
    | '+' :: rest => (false, rest)
    | _ => (false, t)
  if signed.2.map Char.toLower = ['n', 'a', 'n'] then some PyFloat.nan
  else
    match decimalOfChars signed.2 with
    | some q => some (PyFloat.finite (if signed.1 then -q else q))
    | none => none

/-- Model of CPython `float(x)` on a raw cell: strings parse or raise
`ValueError`; numeric values convert to themselves; `None` raises
`TypeError`. -/
def pythonFloat : PyValue → Except PyError PyFloat
  | .str s =>
      match floatOfString s with
      | some v => .ok v
      | none => .error .valueError
  | .flt v => .ok v
  | .pyNone => .error .typeError

/-- One input row: `Name`, `Class`, `Subject` and the raw `Score` cell. -/
structure Record where
  name : String
  classId : String
  subject : String
  rawScore : PyValue
deriving DecidableEq

/-- `clean_score` from `2_fp_summarize.py`: `float` under
`try/except (ValueError, TypeError)`, returning `None` on any failure. -/
def clean_score (v : PyValue) : Option PyFloat :=
  match pythonFloat v with
  | .ok x => some x
  | .error _ => none

/-- `calculate_grade` from `2_fp_summarize.py`: `None` maps to `"Error"`,
otherwise the descending threshold cascade. -/
def calculate_grade (score : Option PyFloat) : String :=
  match score with
  | none => "Error"
  | some s =>
      if s.ge (.finite 90) then "A"
      else if s.ge (.finite 80) then "B"
      else if s.ge (.finite 70) then "C"
      else if s.ge (.finite 60) then "D"
      else "F"

/-- A row of the processed dataframe: the `Score` column now holds
`clean_score`'s result (a float or `None`) and `Grade` the letter grade. -/
structure GradedRow where
  name : String
  classId : String
  subject : String
  score : Option PyFloat
  grade : String
deriving DecidableEq

/-- One row of `add_grade_column`'s output: both assigned columns apply
`clean_score` to the original raw `Score` cell. -/
def gradeRow (r : Record) : GradedRow :=
  { name := r.name
    classId := r.classId
    subject := r.subject
    score := clean_score r.rawScore
    grade := calculate_grade (clean_score r.rawScore) }

/-- `add_grade_column` from `2_fp_summarize.py`, on the loaded row list. -/
def add_grade_column (rows : List Record) : List GradedRow := rows.map gradeRow

/-- pandas `notna` on a `Score` cell: both `None` and NaN are missing. -/
def notna : Option PyFloat → Bool
  | some (.finite _) => true
  | _ => false

/-- `filter_valid_scores` from `2_fp_summarize.py`:
`student_df[student_df["Score"].notna()]`. -/
def filter_valid_scores (rows : List GradedRow) : List GradedRow :=
  rows.filter (fun r => notna r.score)

/-- The finite value of a `Score` cell, when it has one. -/
def finitePart : Option PyFloat → Option ℚ
  | some (.finite q) => some q
  | _ => none

/-- pandas `Series.mean`: arithmetic mean of the non-missing entries, NaN
when there are none. -/
def seriesMean (xs : List (Option PyFloat)) : PyFloat :=
  let fs := xs.filterMap finitePart
  if fs.length = 0 then PyFloat.nan else PyFloat.finite (fs.sum / fs.length)

/-- `calculate_group_average` from `2_fp_summarize.py`, as the mapping that
`groupby(group_column)["Score"].mean().to_dict()` produces: a key is bound
exactly when its group is non-empty, to the group's mean score. -/
def calculate_group_average (rows : List GradedRow) (key : GradedRow → String) :
    String → Option PyFloat :=
  fun k =>
    let g := rows.filter (fun r => key r == k)
    if g.length = 0 then none else some (seriesMean (g.map (fun r => r.score)))

/-- The dictionary `pipeline_processing` returns. -/
structure FPResult where
  processedData : List GradedRow
  overallAverage : PyFloat
  classAverages : String → Option PyFloat
  subjectAverages : String → Option PyFloat
  validCount : ℕ
  totalCount : ℕ

/-- `pipeline_processing` from `2_fp_summarize.py`, with the CSV already
loaded into `rows` (file reading belongs to the external collaborator). -/
def pipeline_processing (rows : List Record) : FPResult :=
  let processed := add_grade_column rows
  let valid := filter_valid_scores processed
  { processedData := processed
    overallAverage := seriesMean (valid.map (fun r => r.score))
    classAverages := calculate_group_average valid (fun r => r.classId)
    subjectAverages := calculate_group_average valid (fun r => r.subject)
    validCount := valid.length
    totalCount := processed.length }

/-- The observable summary both implementations report: overall mean, the
two group-mean mappings, and the valid/invalid record counts. -/
@[ext]
structure Summary where
  overallMean : PyFloat
  classMeans : String → Option PyFloat
  subjectMeans : String → Option PyFloat
  validCount : ℕ
  invalidCount : ℕ

/-- The summary of the functional pipeline restricted to an already graded
dataframe (`2_fp_summarize.py` lines 116-129: the statistics computed from
`processed_df`, with the invalid count displayed as total minus valid). -/
def fpSummaryOfGraded (processed : List GradedRow) : Summary :=
  let valid := filter_valid_scores processed
  { overallMean := seriesMean (valid.map (fun r => r.score))
    classMeans := calculate_group_average valid (fun r => r.classId)
    subjectMeans := calculate_group_average valid (fun r => r.subject)
    validCount := valid.length
    invalidCount := processed.length - valid.length }

/-- The summary the functional implementation reports for a row list. -/
def fpSummary (rows : List Record) : Summary :=
  fpSummaryOfGraded (add_grade_column rows)

/-- `fpSummary` is exactly the observable part of `pipeline_processing`. -/
theorem fpSummary_pipeline (rows : List Record) :
    fpSummary rows =
      { overallMean := (pipeline_processing rows).overallAverage
        classMeans := (pipeline_processing rows).classAverages
        subjectMeans := (pipeline_processing rows).subjectAverages
        validCount := (pipeline_processing rows).validCount
        invalidCount :=
          (pipeline_processing rows).totalCount -
            (pipeline_processing rows).validCount } := rfl

/-- The grade cascade of `1_imperative_summarize.py` lines 59-69, applied
once the score parsed successfully. -/
def gradeOfScore (s : PyFloat) : String :=
  if s.ge (.finite 90) then "A"
  else if s.ge (.finite 80) then "B"
  else if s.ge (.finite 70) then "C"
  else if s.ge (.finite 60) then "D"
  else "F"

/-- One entry of the imperative script's `students_data`. -/
structure StudentRec where
  name : String
  classId : String
  subject : String
  score : PyFloat
  grade : String
deriving DecidableEq

/-- The imperative script's accumulator variables (lines 34-41), with the
total dictionaries as partial maps; `totalCount` counts the rows seen so
far and stands for `len(df)`. -/
@[ext]
structure AggAcc where
  overallTotal : PyFloat
  overallCount : ℕ
  classTotals : String → Option PyFloat
  classCounts : String → Option ℕ
  subjectTotals : String → Option PyFloat
  subjectCounts : String → Option ℕ
  totalCount : ℕ

/-- The initial accumulator state. -/
def emptyAcc : AggAcc :=
  { overallTotal := 0
    overallCount := 0
    classTotals := fun _ => none
    classCounts := fun _ => none
    subjectTotals := fun _ => none
    subjectCounts := fun _ => none
    totalCount := 0 }

/-- Lines 83-101 of the imperative script: the statistics update for one
valid score (a dictionary key is initialised to 0 on first sight, then
incremented). -/
def aggStepValid (a : AggAcc) (c subj : String) (s : PyFloat) : AggAcc :=
  { overallTotal := a.overallTotal + s
    overallCount := a.overallCount + 1
    classTotals := fun k =>
      if k = c then some ((a.classTotals c).getD 0 + s) else a.classTotals k
    classCounts := fun k =>
      if k = c then some ((a.classCounts c).getD 0 + 1) else a.classCounts k
    subjectTotals := fun k =>
      if k = subj then some ((a.subjectTotals subj).getD 0 + s)
      else a.subjectTotals k
    subjectCounts := fun k =>
      if k = subj then some ((a.subjectCounts subj).getD 0 + 1)
      else a.subjectCounts k
    totalCount := a.totalCount + 1 }

/-- An invalid row contributes to no accumulator; only the row count grows. -/
def accSkip (a : AggAcc) : AggAcc := { a with totalCount := a.totalCount + 1 }

/-- The aggregation semantics of the imperative loop on one graded record:
update every statistic if the score parsed, otherwise skip. -/
def aggStep (a : AggAcc) (r : GradedRow) : AggAcc :=
  match r.score with
  | some s => aggStepValid a r.classId r.subject s
  | none => accSkip a

/-- Aggregating a sequence of graded records from the empty state. -/
def aggregate (rows : List GradedRow) : AggAcc := rows.foldl aggStep emptyAcc

/-- Pairwise merge of two optional running totals. -/
def mergeOptF : Option PyFloat → Option PyFloat → Option PyFloat
  | none, y => y
  | some x, none => some x
  | some x, some y => some (x + y)

/-- Pairwise merge of two optional counts. -/
def mergeOptN : Option ℕ → Option ℕ → Option ℕ
  | none, y => y
  | some x, none => some x
  | some x, some y => some (x + y)

/-- Merge of two accumulator states: sums and counts add, dictionaries
merge pairwise. -/
def mergeAcc (a b : AggAcc) : AggAcc :=
  { overallTotal := a.overallTotal + b.overallTotal
    overallCount := a.overallCount + b.overallCount
    classTotals := fun k => mergeOptF (a.classTotals k) (b.classTotals k)
    classCounts := fun k => mergeOptN (a.classCounts k) (b.classCounts k)
    subjectTotals := fun k => mergeOptF (a.subjectTotals k) (b.subjectTotals k)
    subjectCounts := fun k => mergeOptN (a.subjectCounts k) (b.subjectCounts k)
    totalCount := a.totalCount + b.totalCount }

/-- Lines 103-112 of the imperative script plus its printed counts: means
derived from the accumulators, with the overall mean reported as 0 when no
valid score was seen. -/
def AggAcc.toSummaryImp (a : AggAcc) : Summary :=
  { overallMean :=
      if 0 < a.overallCount then a.overallTotal.divNat a.overallCount
      else PyFloat.finite 0
    classMeans := fun k =>
      match a.classTotals k, a.classCounts k with
      | some t, some c => some (t.divNat c)
      | _, _ => none
    subjectMeans := fun k =>
      match a.subjectTotals k, a.subjectCounts k with
      | some t, some c => some (t.divNat c)
      | _, _ => none
    validCount := a.overallCount
    invalidCount := a.totalCount - a.overallCount }

/-- The mutable state of the imperative row loop. -/
structure ImpState where
  studentsData : List StudentRec
  acc : AggAcc
  lastScore : Option PyFloat

/-- The state before the first row: no statistics, and the local variable
`score` not yet bound. -/
def initState : ImpState := { studentsData := [], acc := emptyAcc, lastScore := none }

/-- Lines 52-56 of the imperative script: `score = float(score_str)` under
`try/except ValueError`, yielding the `is_valid_score` flag and the value
of the `score` variable, which a caught error leaves at its previous
binding.  A `TypeError` is not caught and propagates. -/
def tryFloatImp (last : Option PyFloat) (v : PyValue) :
    Except PyError (Bool × Option PyFloat) :=
  match pythonFloat v with
  | .ok s => .ok (true, some s)
  | .error .valueError => .ok (false, last)
  | .error e => .error e

/-- One iteration of the main row loop (lines 44-101).  Building
`student_record` reads the variable `score`; if it was never assigned (the
row is invalid and no earlier row parsed), that read raises `NameError`. -/
def impStep (st : ImpState) (r : Record) : Except PyError ImpState :=
  match tryFloatImp st.lastScore r.rawScore with
  | .error e => .error e
  | .ok (isValid, scoreVar) =>
      match scoreVar with
      | none => .error .nameError
      | some s =>
          .ok { studentsData := st.studentsData ++
                  [{ name := r.name
                     classId := r.classId
                     subject := r.subject
                     score := s
                     grade := if isValid then gradeOfScore s else "Error" }]
                acc := if isValid then aggStepValid st.acc r.classId r.subject s
                       else accSkip st.acc
                lastScore := some s }

/-- Running the row loop from a given state. -/
def impRunFrom (st : ImpState) (rows : List Record) : Except PyError ImpState :=
  rows.foldlM impStep st

/-- Running the whole imperative script on a loaded row list. -/
def impRun (rows : List Record) : Except PyError ImpState :=
  impRunFrom initState rows

/-- The summary the imperative implementation reports (or the exception it
dies with). -/
def impSummary (rows : List Record) : Except PyError Summary :=
  (impRun rows).map (fun st => st.acc.toSummaryImp)

/-!  Helper functions and lemmas describing what the accumulator fold
computes, used to settle the aggregation claims. -/

/-- The parsed scores of the records the aggregation counts as valid. -/
def validScores (rows : List GradedRow) : List PyFloat :=
  rows.filterMap (fun r => r.score)

/-- The parsed scores of the valid records in class `k`. -/
def classScores (rows : List GradedRow) (k : String) : List PyFloat :=
  (rows.filter (fun r => r.classId == k)).filterMap (fun r => r.score)

/-- The parsed scores of the valid records in subject `k`. -/
def subjScores (rows : List GradedRow) (k : String) : List PyFloat :=
  (rows.filter (fun r => r.subject == k)).filterMap (fun r => r.score)

/-- The value a total dictionary entry holds after folding scores `xs` into
an entry that started as `o` (absent entries are initialised to 0). -/
def optAccF (o : Option PyFloat) (xs : List PyFloat) : Option PyFloat :=
  if xs.length = 0 then o else some (o.getD 0 + xs.sum)

/-- The value a count dictionary entry holds after `n` increments. -/
def optAccN (o : Option ℕ) (n : ℕ) : Option ℕ :=
  if n = 0 then o else some (o.getD 0 + n)

theorem optAccF_push (o : Option PyFloat) (s : PyFloat) (xs : List PyFloat) :
    optAccF (some (o.getD 0 + s)) xs = optAccF o (s :: xs) := by
  cases xs with
  | nil => simp [optAccF]
  | cons y ys => simp [optAccF, add_assoc]

theorem optAccN_push (o : Option ℕ) (n : ℕ) :
    optAccN (some (o.getD 0 + 1)) n = optAccN o (n + 1) := by
  cases n with
  | zero => simp [optAccN]
  | succ m => simp [optAccN]; omega

theorem validScores_cons (r : GradedRow) (rows : List GradedRow) :
    validScores (r :: rows) =
      match r.score with
      | some s => s :: validScores rows
      | none => validScores rows := by
  cases h : r.score <;> simp [validScores, List.filterMap_cons, h]

theorem classScores_cons (r : GradedRow) (rows : List GradedRow) (k : String) :
    classScores (r :: rows) k =
      if r.classId = k then
        match r.score with
        | some s => s :: classScores rows k
        | none => classScores rows k
      else classScores rows k := by
  by_cases hc : r.classId = k <;>
    cases h : r.score <;>
      simp [classScores, List.filter_cons, hc, List.filterMap_cons, h]

theorem subjScores_cons (r : GradedRow) (rows : List GradedRow) (k : String) :
    subjScores (r :: rows) k =
      if r.subject = k then
        match r.score with
        | some s => s :: subjScores rows k
        | none => subjScores rows k
      else subjScores rows k := by
  by_cases hc : r.subject = k <;>
    cases h : r.score <;>
      simp [subjScores, List.filter_cons, hc, List.filterMap_cons, h]

theorem agg_overallTotal (rows : List GradedRow) (a : AggAcc) :
    (rows.foldl aggStep a).overallTotal = a.overallTotal + (validScores rows).sum := by
  induction rows generalizing a with
  | nil => simp [validScores]
  | cons r rest ih =>
      rw [List.foldl_cons, ih, validScores_cons]
      cases h : r.score <;>
        simp [aggStep, h, aggStepValid, accSkip, add_assoc]

theorem agg_overallCount (rows : List GradedRow) (a : AggAcc) :
    (rows.foldl aggStep a).overallCount = a.overallCount + (validScores rows).length := by
  induction rows generalizing a with
  | nil => simp [validScores]
  | cons r rest ih =>
      rw [List.foldl_cons, ih, validScores_cons]
      cases h : r.score <;>
        simp [aggStep, h, aggStepValid, accSkip, Nat.add_assoc, Nat.add_comm,
          Nat.add_left_comm]

theorem agg_totalCount (rows : List GradedRow) (a : AggAcc) :
    (rows.foldl aggStep a).totalCount = a.totalCount + rows.length := by
  induction rows generalizing a with
  | nil => simp
  | cons r rest ih =>
      rw [List.foldl_cons, ih]
      cases h : r.score <;>
        simp [aggStep, h, aggStepValid, accSkip] <;> omega

theorem agg_classTotals (rows : List GradedRow) (a : AggAcc) (k : String) :
    (rows.foldl aggStep a).classTotals k = optAccF (a.classTotals k) (classScores rows k) := by
  induction rows generalizing a with
  | nil => simp [classScores, optAccF]
  | cons r rest ih =>
      rw [List.foldl_cons, ih, classScores_cons]
      by_cases hc : r.classId = k
      · cases h : r.score <;>
          simp [aggStep, h, aggStepValid, accSkip, hc, optAccF_push]
      · cases h : r.score <;>
          simp [aggStep, h, aggStepValid, accSkip, hc, Ne.symm hc]

theorem agg_classCounts (rows : List GradedRow) (a : AggAcc) (k : String) :
    (rows.foldl aggStep a).classCounts k =
      optAccN (a.classCounts k) (classScores rows k).length := by
  induction rows generalizing a with
  | nil => simp [classScores, optAccN]
  | cons r rest ih =>
      rw [List.foldl_cons, ih, classScores_cons]
      by_cases hc : r.classId = k
      · cases h : r.score <;>
          simp [aggStep, h, aggStepValid, accSkip, hc, optAccN_push]
      · cases h : r.score <;>
          simp [aggStep, h, aggStepValid, accSkip, hc, Ne.symm hc]

theorem agg_subjectTotals (rows : List GradedRow) (a : AggAcc) (k : String) :
    (rows.foldl aggStep a).subjectTotals k =
      optAccF (a.subjectTotals k) (subjScores rows k) := by
  induction rows generalizing a with
  | nil => simp [subjScores, optAccF]
  | cons r rest ih =>
      rw [List.foldl_cons, ih, subjScores_cons]
      by_cases hc : r.subject = k
      · cases h : r.score <;>
          simp [aggStep, h, aggStepValid, accSkip, hc, optAccF_push]
      · cases h : r.score <;>
          simp [aggStep, h, aggStepValid, accSkip, hc, Ne.symm hc]

theorem agg_subjectCounts (rows : List GradedRow) (a : AggAcc) (k : String) :
    (rows.foldl aggStep a).subjectCounts k =
      optAccN (a.subjectCounts k) (subjScores rows k).length := by
  induction rows generalizing a with
  | nil => simp [subjScores, optAccN]
  | cons r rest ih =>
      rw [List.foldl_cons, ih, subjScores_cons]
      by_cases hc : r.subject = k
      · cases h : r.score <;>
          simp [aggStep, h, aggStepValid, accSkip, hc, optAccN_push]
      · cases h : r.score <;>
          simp [aggStep, h, aggStepValid, accSkip, hc, Ne.symm hc]

theorem pySum_map_finite (l : List ℚ) :
    (l.map PyFloat.finite).sum = PyFloat.finite l.sum := by
  induction l with
  | nil => simp [pyZero_def]
  | cons q qs ih => simp [ih, pyAdd_def, PyFloat.add]

theorem aggSummary_overallMean (grs : List GradedRow) :
    (aggregate grs).toSummaryImp.overallMean =
      if (validScores grs).length = 0 then PyFloat.finite 0
      else (validScores grs).sum.divNat (validScores grs).length := by
  simp only [AggAcc.toSummaryImp, aggregate]
  rw [agg_overallTotal, agg_overallCount]
  simp only [emptyAcc, zero_add]
  cases h : (validScores grs).length <;> simp [h]

theorem aggSummary_validCount (grs : List GradedRow) :
    (aggregate grs).toSummaryImp.validCount = (validScores grs).length := by
  simp only [AggAcc.toSummaryImp, aggregate]
  rw [agg_overallCount]
  simp [emptyAcc]

theorem aggSummary_invalidCount (grs : List GradedRow) :
    (aggregate grs).toSummaryImp.invalidCount =
      grs.length - (validScores grs).length := by
  simp only [AggAcc.toSummaryImp, aggregate]
  rw [agg_overallCount, agg_totalCount]
  simp [emptyAcc]

theorem aggSummary_classMeans (grs : List GradedRow) (k : String) :
    (aggregate grs).toSummaryImp.classMeans k =
      if (classScores grs k).length = 0 then none
      else some ((classScores grs k).sum.divNat (classScores grs k).length) := by
  simp only [AggAcc.toSummaryImp, aggregate]
  rw [agg_classTotals, agg_classCounts]
  simp only [emptyAcc]
  cases hcs : classScores grs k <;> simp [hcs, optAccF, optAccN]

theorem aggSummary_subjectMeans (grs : List GradedRow) (k : String) :
    (aggregate grs).toSummaryImp.subjectMeans k =
      if (subjScores grs k).length = 0 then none
      else some ((subjScores grs k).sum.divNat (subjScores grs k).length) := by
  simp only [AggAcc.toSummaryImp, aggregate]
  rw [agg_subjectTotals, agg_subjectCounts]
  simp only [emptyAcc]
  cases hcs : subjScores grs k <;> simp [hcs, optAccF, optAccN]

theorem validScores_append (xs ys : List GradedRow) :
    validScores (xs ++ ys) = validScores xs ++ validScores ys := by
  simp [validScores, List.filterMap_append]

theorem classScores_append (xs ys : List GradedRow) (k : String) :
    classScores (xs ++ ys) k = classScores xs k ++ classScores ys k := by
  simp [classScores, List.filter_append, List.filterMap_append]

theorem subjScores_append (xs ys : List GradedRow) (k : String) :
    subjScores (xs ++ ys) k = subjScores xs k ++ subjScores ys k := by
  simp [subjScores, List.filter_append, List.filterMap_append]

theorem optAccF_append (l1 l2 : List PyFloat) :
    optAccF none (l1 ++ l2) = mergeOptF (optAccF none l1) (optAccF none l2) := by
  cases h1 : l1.length with
  | zero =>
      have : l1 = [] := List.length_eq_zero.mp h1
      simp [this, optAccF, mergeOptF]
  | succ m =>
      cases h2 : l2.length with
      | zero =>
          have : l2 = [] := List.length_eq_zero.mp h2
          simp [this, optAccF, mergeOptF, h1]
      | succ n =>
          simp [optAccF, mergeOptF, h1, h2, List.sum_append, add_assoc]

theorem optAccN_add (n1 n2 : ℕ) :
    optAccN none (n1 + n2) = mergeOptN (optAccN none n1) (optAccN none n2) := by
  cases n1 <;> cases n2 <;> simp [optAccN, mergeOptN, Nat.add_comm]

theorem validScores_perm {grs1 grs2 : List GradedRow} (h : grs1.Perm grs2) :
    (validScores grs1).Perm (validScores grs2) := by
  unfold validScores
  exact h.filterMap _

theorem classScores_perm {grs1 grs2 : List GradedRow} (h : grs1.Perm grs2)
    (k : String) : (classScores grs1 k).Perm (classScores grs2 k) := by
  unfold classScores
  exact (h.filter _).filterMap _

theorem subjScores_perm {grs1 grs2 : List GradedRow} (h : grs1.Perm grs2)
    (k : String) : (subjScores grs1 k).Perm (subjScores grs2 k) := by
  unfold subjScores
  exact (h.filter _).filterMap _

theorem optAccF_congr {o : Option PyFloat} {xs ys : List PyFloat}
    (hl : xs.length = ys.length) (hs : xs.sum = ys.sum) :
    optAccF o xs = optAccF o ys := by
  simp [optAccF, hl, hs]

theorem seriesMean_perm {xs ys : List (Option PyFloat)} (h : xs.Perm ys) :
    seriesMean xs = seriesMean ys := by
  have hf : (xs.filterMap finitePart).Perm (ys.filterMap finitePart) :=
    h.filterMap finitePart
  simp [seriesMean, hf.length_eq, hf.sum_eq]

theorem aggregate_perm {grs1 grs2 : List GradedRow} (h : grs1.Perm grs2) :
    aggregate grs1 = aggregate grs2 := by
  have hv := validScores_perm h
  ext k
  case overallTotal =>
    have h1 := agg_overallTotal grs1 emptyAcc
    have h2 := agg_overallTotal grs2 emptyAcc
    simp [aggregate, h1, h2, hv.sum_eq]
  case overallCount =>
    have h1 := agg_overallCount grs1 emptyAcc
    have h2 := agg_overallCount grs2 emptyAcc
    simp [aggregate, h1, h2, hv.length_eq]
  case totalCount =>
    have h1 := agg_totalCount grs1 emptyAcc
    have h2 := agg_totalCount grs2 emptyAcc
    simp [aggregate, h1, h2, h.length_eq]
  case classTotals =>
    have hc := classScores_perm h k
    rw [aggregate, aggregate, agg_classTotals, agg_classTotals,
      optAccF_congr hc.length_eq hc.sum_eq]
  case classCounts =>
    have hc := classScores_perm h k
    rw [aggregate, aggregate, agg_classCounts, agg_classCounts, hc.length_eq]
  case subjectTotals =>
    have hc := subjScores_perm h k
    rw [aggregate, aggregate, agg_subjectTotals, agg_subjectTotals,
      optAccF_congr hc.length_eq hc.sum_eq]
  case subjectCounts =>
    have hc := subjScores_perm h k
    rw [aggregate, aggregate, agg_subjectCounts, agg_subjectCounts, hc.length_eq]

theorem fpSummaryOfGraded_perm {grs1 grs2 : List GradedRow}
    (h : grs1.Perm grs2) : fpSummaryOfGraded grs1 = fpSummaryOfGraded grs2 := by
  have hv : (filter_valid_scores grs1).Perm (filter_valid_scores grs2) := by
    unfold filter_valid_scores
    exact h.filter _
  ext k
  case overallMean =>
    exact seriesMean_perm (hv.map (fun r => r.score))
  case classMeans =>
    have hg : ((filter_valid_scores grs1).filter (fun r => r.classId == k)).Perm
        ((filter_valid_scores grs2).filter (fun r => r.classId == k)) :=
      hv.filter (fun r => r.classId == k)
    simp [fpSummaryOfGraded, calculate_group_average, hg.length_eq,
      seriesMean_perm (hg.map (fun r => r.score))]
  case subjectMeans =>
    have hg : ((filter_valid_scores grs1).filter (fun r => r.subject == k)).Perm
        ((filter_valid_scores grs2).filter (fun r => r.subject == k)) :=
      hv.filter (fun r => r.subject == k)
    simp [fpSummaryOfGraded, calculate_group_average, hg.length_eq,
      seriesMean_perm (hg.map (fun r => r.score))]
  case validCount =>
    exact hv.length_eq
  case invalidCount =>
    simp [fpSummaryOfGraded, h.length_eq, hv.length_eq]

theorem gradeRow_score (r : Record) : (gradeRow r).score = clean_score r.rawScore := rfl

theorem clean_score_of_ok {r : PyValue} {v : PyFloat} (h : pythonFloat r = .ok v) :
    clean_score r = some v := by
  simp [clean_score, h]

theorem impRunFrom_parse_ok (rows : List Record) (st : ImpState)
    (hok : ∀ r ∈ rows, ∃ v : PyFloat, pythonFloat r.rawScore = .ok v) :
    ∃ st' : ImpState, impRunFrom st rows = .ok st' ∧
      st'.acc = (add_grade_column rows).foldl aggStep st.acc := by
  induction rows generalizing st with
  | nil => exact ⟨st, rfl, rfl⟩
  | cons r rest ih =>
      obtain ⟨v, hv⟩ := hok r (List.mem_cons_self r rest)
      have hstep : impStep st r = .ok
          { studentsData := st.studentsData ++
              [{ name := r.name
                 classId := r.classId
                 subject := r.subject
                 score := v
                 grade := gradeOfScore v }]
            acc := aggStepValid st.acc r.classId r.subject v
            lastScore := some v } := by
        simp [impStep, tryFloatImp, hv]
      obtain ⟨st', h1, h2⟩ := ih
        { studentsData := st.studentsData ++
            [{ name := r.name
               classId := r.classId
               subject := r.subject
               score := v
               grade := gradeOfScore v }]
          acc := aggStepValid st.acc r.classId r.subject v
          lastScore := some v }
        (fun r hr => hok r (List.mem_cons_of_mem _ hr))
      refine ⟨st', ?_, ?_⟩
      · rw [impRunFrom, List.foldlM_cons, hstep]
        exact h1
      · rw [h2]
        have hgr : aggStep st.acc (gradeRow r) =
            aggStepValid st.acc r.classId r.subject v := by
          simp [aggStep, gradeRow_score, clean_score_of_ok hv, gradeRow]
        simp [add_grade_column, List.foldl_cons, hgr]

theorem filter_valid_of_finite (grs : List GradedRow)
    (hall : ∀ gr ∈ grs, ∃ q : ℚ, gr.score = some (PyFloat.finite q)) :
    filter_valid_scores grs = grs := by
  unfold filter_valid_scores
  rw [List.filter_eq_self]
  intro a ha
  obtain ⟨q, hq⟩ := hall a ha
  simp [notna, hq]

theorem filterMap_score_eq (l : List GradedRow)
    (hall : ∀ gr ∈ l, ∃ q : ℚ, gr.score = some (PyFloat.finite q)) :
    l.filterMap (fun r => r.score) =
      (l.filterMap (fun r => finitePart r.score)).map PyFloat.finite := by
  induction l with
  | nil => simp
  | cons r rest ih =>
      obtain ⟨q, hq⟩ := hall r (List.mem_cons_self r rest)
      simp [List.filterMap_cons, hq, finitePart,
        ih (fun a ha => hall a (List.mem_cons_of_mem _ ha))]

theorem filterMap_finitePart_length (l : List GradedRow)
    (hall : ∀ gr ∈ l, ∃ q : ℚ, gr.score = some (PyFloat.finite q)) :
    (l.filterMap (fun r => finitePart r.score)).length = l.length := by
  induction l with
  | nil => simp
  | cons r rest ih =>
      obtain ⟨q, hq⟩ := hall r (List.mem_cons_self r rest)
      have hfp : finitePart (some (PyFloat.finite q)) = some q := rfl
      simp only [List.filterMap_cons, hq, hfp, List.length_cons]
      rw [ih (fun a ha => hall a (List.mem_cons_of_mem _ ha))]

theorem seriesMean_of_finite (l : List GradedRow)
    (hall : ∀ gr ∈ l, ∃ q : ℚ, gr.score = some (PyFloat.finite q)) :
    seriesMean (l.map (fun r => r.score)) =
      if l.length = 0 then PyFloat.nan
      else PyFloat.finite ((l.filterMap (fun r => finitePart r.score)).sum / l.length) := by
  have hc : List.filterMap finitePart (l.map fun r => r.score) =
      l.filterMap (fun r => finitePart r.score) := by
    rw [List.filterMap_map]
    rfl
  simp only [seriesMean, hc, filterMap_finitePart_length l hall]

theorem groupMean_eq_of_finite (l : List GradedRow)
    (hall : ∀ gr ∈ l, ∃ q : ℚ, gr.score = some (PyFloat.finite q)) :
    (if (validScores l).length = 0 then none
      else some ((validScores l).sum.divNat (validScores l).length)) =
      (if l.length = 0 then none else some (seriesMean (l.map (fun r => r.score)))) := by
  rw [validScores, filterMap_score_eq l hall, seriesMean_of_finite l hall,
    pySum_map_finite, List.length_map, filterMap_finitePart_length l hall]
  cases h : l.length with
  | zero => simp [h]
  | succ n => simp [h, PyFloat.divNat]

theorem aggSummary_eq_fp (grs : List GradedRow) (hne : grs ≠ [])
    (hall : ∀ gr ∈ grs, ∃ q : ℚ, gr.score = some (PyFloat.finite q)) :
    (aggregate grs).toSummaryImp = fpSummaryOfGraded grs := by
  have hfv := filter_valid_of_finite grs hall
  have hlen0 : grs.length ≠ 0 := fun h => hne (List.length_eq_zero.mp h)
  have hvlen : (validScores grs).length = grs.length := by
    rw [validScores, filterMap_score_eq grs hall, List.length_map,
      filterMap_finitePart_length grs hall]
  have h1 : (aggregate grs).toSummaryImp.overallMean =
      (fpSummaryOfGraded grs).overallMean := by
    rw [aggSummary_overallMean]
    have hrhs : (fpSummaryOfGraded grs).overallMean =
        seriesMean ((filter_valid_scores grs).map (fun r => r.score)) := rfl
    rw [hrhs, hfv, seriesMean_of_finite grs hall, hvlen, validScores,
      filterMap_score_eq grs hall, pySum_map_finite]
    cases h : grs.length with
    | zero => exact absurd h hlen0
    | succ n => simp [h, PyFloat.divNat]
  have h2 : (aggregate grs).toSummaryImp.classMeans =
      (fpSummaryOfGraded grs).classMeans := by
    funext k
    rw [aggSummary_classMeans]
    have hrhs : (fpSummaryOfGraded grs).classMeans k =
        calculate_group_average (filter_valid_scores grs) (fun r => r.classId) k := rfl
    rw [hrhs, hfv]
    have hcs : classScores grs k =
        validScores (grs.filter (fun r => r.classId == k)) := rfl
    have hallg : ∀ gr ∈ grs.filter (fun r => r.classId == k),
        ∃ q : ℚ, gr.score = some (PyFloat.finite q) :=
      fun gr hgr => hall gr (List.mem_of_mem_filter hgr)
    simp only [calculate_group_average]
    rw [hcs, groupMean_eq_of_finite _ hallg]
  have h3 : (aggregate grs).toSummaryImp.subjectMeans =
      (fpSummaryOfGraded grs).subjectMeans := by
    funext k
    rw [aggSummary_subjectMeans]
    have hrhs : (fpSummaryOfGraded grs).subjectMeans k =
        calculate_group_average (filter_valid_scores grs) (fun r => r.subject) k := rfl
    rw [hrhs, hfv]
    have hcs : subjScores grs k =
        validScores (grs.filter (fun r => r.subject == k)) := rfl
    have hallg : ∀ gr ∈ grs.filter (fun r => r.subject == k),
        ∃ q : ℚ, gr.score = some (PyFloat.finite q) :=
      fun gr hgr => hall gr (List.mem_of_mem_filter hgr)
    simp only [calculate_group_average]
    rw [hcs, groupMean_eq_of_finite _ hallg]
  have h4 : (aggregate grs).toSummaryImp.validCount =
      (fpSummaryOfGraded grs).validCount := by
    rw [aggSummary_validCount, hvlen]
    have hrhs : (fpSummaryOfGraded grs).validCount =
        (filter_valid_scores grs).length := rfl
    rw [hrhs, hfv]
  have h5 : (aggregate grs).toSummaryImp.invalidCount =
      (fpSummaryOfGraded grs).invalidCount := by
    rw [aggSummary_invalidCount, hvlen]
    have hrhs : (fpSummaryOfGraded grs).invalidCount =
        grs.length - (filter_valid_scores grs).length := rfl
    rw [hrhs, hfv]
  exact Summary.ext h1 h2 h3 h4 h5

theorem classScores_ne_nil_iff (grs : List GradedRow) (k : String) :
    classScores grs k ≠ [] ↔ ∃ gr ∈ grs, gr.classId = k ∧ gr.score.isSome = true := by
  rw [classScores, ne_eq, List.filterMap_eq_nil_iff]
  push_neg
  constructor
  · rintro ⟨gr, hmem, hne⟩
    rw [List.mem_filter] at hmem
    exact ⟨gr, hmem.1, by simpa using hmem.2, Option.ne_none_iff_isSome.mp hne⟩
  · rintro ⟨gr, hmem, hk, hs⟩
    exact ⟨gr, List.mem_filter.mpr ⟨hmem, by simpa using hk⟩,
      Option.ne_none_iff_isSome.mpr hs⟩

theorem subjScores_ne_nil_iff (grs : List GradedRow) (k : String) :
    subjScores grs k ≠ [] ↔ ∃ gr ∈ grs, gr.subject = k ∧ gr.score.isSome = true := by
  rw [subjScores, ne_eq, List.filterMap_eq_nil_iff]
  push_neg
  constructor
  · rintro ⟨gr, hmem, hne⟩
    rw [List.mem_filter] at hmem
    exact ⟨gr, hmem.1, by simpa using hmem.2, Option.ne_none_iff_isSome.mp hne⟩
  · rintro ⟨gr, hmem, hk, hs⟩
    exact ⟨gr, List.mem_filter.mpr ⟨hmem, by simpa using hk⟩,
      Option.ne_none_iff_isSome.mpr hs⟩

theorem groupAverage_isSome_iff (rows : List GradedRow) (key : GradedRow → String)
    (k : String) :
    (calculate_group_average rows key k).isSome = true ↔
      ∃ gr ∈ rows, key gr = k := by
  simp only [calculate_group_average]
  constructor
  · intro h
    by_cases hl : (rows.filter (fun r => key r == k)).length = 0
    · simp [hl] at h
    · have : rows.filter (fun r => key r == k) ≠ [] := by
        intro hnil
        exact hl (by simp [hnil])
      obtain ⟨gr, hgr⟩ := List.exists_mem_of_ne_nil _ this
      rw [List.mem_filter] at hgr
      exact ⟨gr, hgr.1, by simpa using hgr.2⟩
  · rintro ⟨gr, hmem, hk⟩
    have hne : rows.filter (fun r => key r == k) ≠ [] := by
      rw [ne_eq, List.filter_eq_nil_iff]
      push_neg
      exact ⟨gr, hmem, by simpa using hk⟩
    have : (rows.filter (fun r => key r == k)).length ≠ 0 := by
      simpa using fun h => hne (List.length_eq_zero.mp h)
    simp [this]

theorem mem_filter_valid_graded (rows : List Record) (gr : GradedRow) :
    gr ∈ filter_valid_scores (add_grade_column rows) ↔
      ∃ r ∈ rows, gradeRow r = gr ∧ notna (clean_score r.rawScore) = true := by
  rw [filter_valid_scores, List.mem_filter, add_grade_column, List.mem_map]
  constructor
  · rintro ⟨⟨r, hr, rfl⟩, hna⟩
    exact ⟨r, hr, rfl, by simpa [gradeRow_score] using hna⟩
  · rintro ⟨r, hr, rfl, hna⟩
    exact ⟨⟨r, hr, rfl⟩, by simpa [gradeRow_score] using hna⟩

theorem filter_valid_append_nan (r : Record) (pre post : List Record)
    (h : clean_score r.rawScore = some PyFloat.nan) :
    filter_valid_scores (add_grade_column (pre ++ r :: post)) =
      filter_valid_scores (add_grade_column (pre ++ post)) := by
  simp [add_grade_column, filter_valid_scores, List.map_append, List.filter_append,
    List.map_cons, List.filter_cons, gradeRow_score, h, notna]

/-- The value the loop variable `score` holds after processing `rows`,
starting from `init`: the most recently parsed score, if any. -/
def lastParsedFrom (init : Option PyFloat) (rows : List Record) : Option PyFloat :=
  rows.foldl (fun acc r => ((pythonFloat r.rawScore).toOption).or acc) init

theorem except_bind_ok {α β : Type} (a : α) (f : α → Except PyError β) :
    (Except.ok a >>= f) = f a := rfl

theorem except_bind_error {α β : Type} (e : PyError) (f : α → Except PyError β) :
    ((Except.error e : Except PyError α) >>= f) = Except.error e := rfl

theorem impRunFrom_lastScore (rows : List Record) (st st' : ImpState)
    (h : impRunFrom st rows = .ok st') :
    st'.lastScore = lastParsedFrom st.lastScore rows := by
  induction rows generalizing st with
  | nil =>
      have h0 : (Except.ok st : Except PyError ImpState) = Except.ok st' := h
      injection h0 with h0
      subst h0
      rfl
  | cons r rest ih =>
      rw [impRunFrom, List.foldlM_cons] at h
      cases hp : pythonFloat r.rawScore with
      | ok v =>
          rw [show impStep st r = Except.ok
              { studentsData := st.studentsData ++
                  [{ name := r.name
                     classId := r.classId
                     subject := r.subject
                     score := v
                     grade := gradeOfScore v }]
                acc := aggStepValid st.acc r.classId r.subject v
                lastScore := some v } by
            simp [impStep, tryFloatImp, hp], except_bind_ok] at h
          rw [ih _ h]
          simp [lastParsedFrom, List.foldl_cons, hp, Except.toOption, Option.or]
      | error e =>
          cases e with
          | valueError =>
              cases hl : st.lastScore with
              | none =>
                  rw [show impStep st r = Except.error PyError.nameError by
                    simp [impStep, tryFloatImp, hp, hl], except_bind_error] at h
                  simp at h
              | some v =>
                  rw [show impStep st r = Except.ok
                      { studentsData := st.studentsData ++
                          [{ name := r.name
                             classId := r.classId
                             subject := r.subject
                             score := v
                             grade := "Error" }]
                        acc := accSkip st.acc
                        lastScore := some v } by
                    simp [impStep, tryFloatImp, hp, hl], except_bind_ok] at h
                  rw [ih _ h]
                  simp [lastParsedFrom, List.foldl_cons, hp, Except.toOption,
                    Option.or, hl]
          | typeError =>
              rw [show impStep st r = Except.error PyError.typeError by
                simp [impStep, tryFloatImp, hp], except_bind_error] at h
              simp at h
          | nameError =>
              rw [show impStep st r = Except.error PyError.nameError by
                simp [impStep, tryFloatImp, hp], except_bind_error] at h
              simp at h

theorem calculate_grade_some_ne_error (s : PyFloat) :
    calculate_grade (some s) ≠ "Error" := by
  cases s <;> simp only [calculate_grade, PyFloat.ge] <;> split_ifs <;> simp

/-!  The claims. -/

/-- C1: the spec's invariant `grade = Error ⇔ score = Invalid` is the
intent, and the functional implementation satisfies it for every record
(second conjunct); but the imperative row loop is a slip: a record whose
score fails to parse is stored with grade `"Error"` and the previous row's
parsed score, as the concrete two-row evaluation shows (first conjunct):
Bob's record carries Alice's score 90.0 next to grade `"Error"`, which is
not the invalid marker. -/
theorem imperative_error_record_breaks_grade_invariant :
    (impRun [{ name := "Alice", classId := "A02", subject := "Science",
               rawScore := PyValue.str "90" },
             { name := "Bob", classId := "A01", subject := "English",
               rawScore := PyValue.str "SomeError" }]).map
        (fun st => st.studentsData.map (fun s => (s.score, s.grade))) =
      Except.ok [(PyFloat.finite 90, "A"), (PyFloat.finite 90, "Error")] ∧
    (∀ v : PyValue, calculate_grade (clean_score v) = "Error" ↔ clean_score v = none) := by
  refine ⟨rfl, fun v => ?_⟩
  cases h : clean_score v with
  | none => simp [calculate_grade]
  | some s => simpa using calculate_grade_some_ne_error s

/-- C2 (counterexample): the imperative score conversion catches only
`ValueError`, so on the raw value `None` the `TypeError` from `float` is
raised to the caller instead of producing the invalid marker. -/
theorem imperative_normalizer_raises_typeError_on_none :
    tryFloatImp none PyValue.pyNone = Except.error PyError.typeError := rfl

/-- C2 (amended): the functional normalizer `clean_score` returns the
parsed value on success and the invalid marker `None` on any parse
failure, and never raises, for text, numeric and `None` inputs alike; the
imperative conversion never raises for any raw value other than `None`,
but propagates a `TypeError` on `None`. -/
theorem normalizer_no_raise_amended (v : PyValue) (last : Option PyFloat) :
    (∀ f : PyFloat, pythonFloat v = .ok f → clean_score v = some f) ∧
    ((pythonFloat v).isOk = false → clean_score v = none) ∧
    (v ≠ PyValue.pyNone → (tryFloatImp last v).isOk = true) := by
  refine ⟨fun f hf => by simp [clean_score, hf], ?_, ?_⟩
  · intro h
    cases hp : pythonFloat v with
    | ok f => rw [hp] at h; simp [Except.isOk, Except.toBool] at h
    | error e => simp [clean_score, hp]
  · intro hv
    cases v with
    | str s =>
        cases hfs : floatOfString s <;>
          simp [tryFloatImp, pythonFloat, hfs, Except.isOk, Except.toBool]
    | flt f => simp [tryFloatImp, pythonFloat, Except.isOk, Except.toBool]
    | pyNone => exact absurd rfl hv

/-- C2 (witness): at the concrete string "90" the amended statement
evaluates: parsing succeeds with 90.0 and the imperative conversion does
not raise. -/
theorem normalizer_no_raise_amended_witness :
    clean_score (PyValue.str "90") = some (PyFloat.finite 90) ∧
    (tryFloatImp none (PyValue.str "90")).isOk = true :=
  ⟨(normalizer_no_raise_amended (PyValue.str "90") none).1 (PyFloat.finite 90) rfl,
   (normalizer_no_raise_amended (PyValue.str "90") none).2.2 (by decide)⟩

/-- C3 (counterexample): on the single row whose score is the unparseable
string "SomeError", the imperative implementation dies with a `NameError`
(the record construction reads the never-assigned variable `score`), while
the functional implementation returns a summary; so the two do not produce
the same summary result on every input. -/
theorem imp_fp_diverge_on_unparseable_score :
    impSummary [{ name := "Bob", classId := "A01", subject := "English",
                  rawScore := PyValue.str "SomeError" }] =
      Except.error PyError.nameError ∧
    impSummary [{ name := "Bob", classId := "A01", subject := "English",
                  rawScore := PyValue.str "SomeError" }] ≠
      Except.ok (fpSummary [{ name := "Bob", classId := "A01", subject := "English",
                              rawScore := PyValue.str "SomeError" }]) := by
  have h1 : impSummary [{ name := "Bob", classId := "A01", subject := "English",
                          rawScore := PyValue.str "SomeError" }] =
      Except.error PyError.nameError := rfl
  refine ⟨h1, ?_⟩
  intro hcontra
  rw [h1] at hcontra
  exact Except.noConfusion hcontra

/-- C3 (amended): on every non-empty input in which every raw score parses
to a finite float, the imperative and the functional implementation
produce the same summary: same overall mean, same class-mean and
subject-mean mappings, and same valid and invalid counts.  (Without the
hypotheses they diverge: an unparseable leading score crashes the
imperative version, a score parsing to NaN is counted as valid by the
imperative loop but dropped by the functional filter, and on an input with
no valid scores the imperative overall mean is 0 while the functional one
is NaN.) -/
theorem imp_fp_summaries_agree (rows : List Record) (hne : rows ≠ [])
    (hfin : ∀ r ∈ rows, ∃ q : ℚ, pythonFloat r.rawScore = .ok (PyFloat.finite q)) :
    impSummary rows = Except.ok (fpSummary rows) := by
  obtain ⟨st', h1, h2⟩ := impRunFrom_parse_ok rows initState
    (fun r hr => (hfin r hr).elim (fun q hq => ⟨_, hq⟩))
  have hgrs : ∀ gr ∈ add_grade_column rows, ∃ q : ℚ,
      gr.score = some (PyFloat.finite q) := by
    intro gr hgr
    rw [add_grade_column, List.mem_map] at hgr
    obtain ⟨r, hr, rfl⟩ := hgr
    obtain ⟨q, hq⟩ := hfin r hr
    exact ⟨q, by rw [gradeRow_score, clean_score_of_ok hq]⟩
  have hne2 : add_grade_column rows ≠ [] := by
    intro h0
    exact hne (List.map_eq_nil_iff.mp h0)
  rw [impSummary, impRun, h1]
  have h3 : st'.acc = aggregate (add_grade_column rows) := h2
  simp only [Except.map]
  rw [h3, aggSummary_eq_fp _ hne2 hgrs]
  rfl

/-- C3 (witness): on the concrete single row Alice/A02/Science/"90" the
two implementations agree. -/
theorem imp_fp_summaries_agree_witness :
    impSummary [{ name := "Alice", classId := "A02", subject := "Science",
                  rawScore := PyValue.str "90" }] =
      Except.ok (fpSummary [{ name := "Alice", classId := "A02", subject := "Science",
                              rawScore := PyValue.str "90" }]) :=
  imp_fp_summaries_agree _ (by simp)
    (by
      intro r hr
      rw [List.mem_singleton] at hr
      subst hr
      exact ⟨90, rfl⟩)

/-- C4: the grade classifier is total with inclusive lower bounds taken in
descending order: `Invalid` maps to `"Error"`, and a finite score `v` maps
to A on `v ≥ 90`, B on `80 ≤ v < 90`, C on `70 ≤ v < 80`, D on
`60 ≤ v < 70` and F on `v < 60`; the imperative grade cascade agrees with
the functional classifier on every parsed score, and the exact boundaries
come out as 90→A, 80→B, 70→C, 60→D and 59.99→F. -/
theorem grade_classifier_thresholds (v : ℚ) :
    calculate_grade none = "Error" ∧
    (90 ≤ v → calculate_grade (some (.finite v)) = "A") ∧
    (80 ≤ v → v < 90 → calculate_grade (some (.finite v)) = "B") ∧
    (70 ≤ v → v < 80 → calculate_grade (some (.finite v)) = "C") ∧
    (60 ≤ v → v < 70 → calculate_grade (some (.finite v)) = "D") ∧
    (v < 60 → calculate_grade (some (.finite v)) = "F") ∧
    (∀ s : PyFloat, gradeOfScore s = calculate_grade (some s)) ∧
    calculate_grade (some (.finite 90)) = "A" ∧
    calculate_grade (some (.finite 80)) = "B" ∧
    calculate_grade (some (.finite 70)) = "C" ∧
    calculate_grade (some (.finite 60)) = "D" ∧
    calculate_grade (some (.finite (5999 / 100))) = "F" := by
  refine ⟨rfl, ?_, ?_, ?_, ?_, ?_, fun s => rfl, by decide, by decide, by decide,
    by decide, ?_⟩
  · intro h
    simp only [calculate_grade, PyFloat.ge, decide_eq_true_eq]
    rw [if_pos h]
  · intro ha hb
    simp only [calculate_grade, PyFloat.ge, decide_eq_true_eq]
    split_ifs <;> first | rfl | linarith
  · intro ha hb
    simp only [calculate_grade, PyFloat.ge, decide_eq_true_eq]
    split_ifs <;> first | rfl | linarith
  · intro ha hb
    simp only [calculate_grade, PyFloat.ge, decide_eq_true_eq]
    split_ifs <;> first | rfl | linarith
  · intro h
    simp only [calculate_grade, PyFloat.ge, decide_eq_true_eq]
    split_ifs <;> first | rfl | linarith
  · simp only [calculate_grade, PyFloat.ge, decide_eq_true_eq]
    split_ifs <;> first | rfl | (exfalso; norm_num at *)

/-- C4 (witness): the classifier evaluated at 95 through the threshold
characterisation gives A. -/
theorem grade_classifier_thresholds_witness :
    calculate_grade (some (.finite 95)) = "A" ∧
    calculate_grade (some (.finite 85)) = "B" :=
  ⟨(grade_classifier_thresholds 95).2.1 (by norm_num),
   (grade_classifier_thresholds 85).2.2.1 (by norm_num) (by norm_num)⟩

/-- C5: the normalizer surfaces the float parse verbatim: on every string
the parser accepts with value `v`, `clean_score` returns `v`, and on every
string it rejects (non-numeric or empty), `clean_score` returns the
invalid marker; the imperative conversion behaves the same way on strings,
setting the valid flag on success and clearing it on failure without
raising. -/
theorem normalizer_parse_contract (s : String) (v : PyFloat) (last : Option PyFloat) :
    (floatOfString s = some v → clean_score (.str s) = some v) ∧
    (floatOfString s = none → clean_score (.str s) = none) ∧
    (floatOfString s = some v → tryFloatImp last (.str s) = .ok (true, some v)) ∧
    (floatOfString s = none → tryFloatImp last (.str s) = .ok (false, last)) := by
  refine ⟨fun h => ?_, fun h => ?_, fun h => ?_, fun h => ?_⟩ <;>
    simp [clean_score, tryFloatImp, pythonFloat, h]

/-- C5 (witness): the concrete strings "90" (parsed) and "" (rejected,
the empty string) evaluated through the contract. -/
theorem normalizer_parse_contract_witness :
    clean_score (.str "90") = some (PyFloat.finite 90) ∧
    clean_score (.str "") = none :=
  ⟨(normalizer_parse_contract "90" (PyFloat.finite 90) none).1 (by decide),
   (normalizer_parse_contract "" (PyFloat.finite 90) none).2.1 (by decide)⟩

/-- C6: a class or subject key is bound in the output mean mapping exactly
when at least one record with that key had a valid score; a group with no
valid score is absent rather than bound to a zero or error value.  The
first two conjuncts state this for the imperative accumulators over graded
records (validity there is a successfully parsed score), the last two for
the functional pipeline over raw rows (validity there is a non-missing
cleaned score). -/
theorem group_key_presence (grs : List GradedRow) (rows : List Record) (k : String) :
    (((aggregate grs).toSummaryImp.classMeans k).isSome = true ↔
      ∃ gr ∈ grs, gr.classId = k ∧ gr.score.isSome = true) ∧
    (((aggregate grs).toSummaryImp.subjectMeans k).isSome = true ↔
      ∃ gr ∈ grs, gr.subject = k ∧ gr.score.isSome = true) ∧
    (((fpSummary rows).classMeans k).isSome = true ↔
      ∃ r ∈ rows, r.classId = k ∧ notna (clean_score r.rawScore) = true) ∧
    (((fpSummary rows).subjectMeans k).isSome = true ↔
      ∃ r ∈ rows, r.subject = k ∧ notna (clean_score r.rawScore) = true) := by
  refine ⟨?_, ?_, ?_, ?_⟩
  · have hiff : ((aggregate grs).toSummaryImp.classMeans k).isSome = true ↔
        classScores grs k ≠ [] := by
      rw [aggSummary_classMeans]
      rcases eq_or_ne (classScores grs k) [] with hnil | hnil
      · simp [hnil]
      · have hlen : (classScores grs k).length ≠ 0 :=
          fun h0 => hnil (List.length_eq_zero.mp h0)
        simp [hlen, hnil]
    exact hiff.trans (classScores_ne_nil_iff grs k)
  · have hiff : ((aggregate grs).toSummaryImp.subjectMeans k).isSome = true ↔
        subjScores grs k ≠ [] := by
      rw [aggSummary_subjectMeans]
      rcases eq_or_ne (subjScores grs k) [] with hnil | hnil
      · simp [hnil]
      · have hlen : (subjScores grs k).length ≠ 0 :=
          fun h0 => hnil (List.length_eq_zero.mp h0)
        simp [hlen, hnil]
    exact hiff.trans (subjScores_ne_nil_iff grs k)
  · rw [show (fpSummary rows).classMeans k = calculate_group_average
        (filter_valid_scores (add_grade_column rows)) (fun r => r.classId) k from rfl,
      groupAverage_isSome_iff]
    constructor
    · rintro ⟨gr, hmem, hk⟩
      obtain ⟨r, hr, rfl, hna⟩ := (mem_filter_valid_graded rows gr).mp hmem
      exact ⟨r, hr, hk, hna⟩
    · rintro ⟨r, hr, hk, hna⟩
      exact ⟨gradeRow r, (mem_filter_valid_graded rows _).mpr ⟨r, hr, rfl, hna⟩, hk⟩
  · rw [show (fpSummary rows).subjectMeans k = calculate_group_average
        (filter_valid_scores (add_grade_column rows)) (fun r => r.subject) k from rfl,
      groupAverage_isSome_iff]
    constructor
    · rintro ⟨gr, hmem, hk⟩
      obtain ⟨r, hr, rfl, hna⟩ := (mem_filter_valid_graded rows gr).mp hmem
      exact ⟨r, hr, hk, hna⟩
    · rintro ⟨r, hr, hk, hna⟩
      exact ⟨gradeRow r, (mem_filter_valid_graded rows _).mpr ⟨r, hr, rfl, hna⟩, hk⟩

/-- C7: aggregation is invariant under permutation of the graded record
sequence: the reported summary (overall mean, class means, subject means,
valid and invalid counts) is the same, both for the imperative accumulator
fold and for the functional filter/groupby pipeline. -/
theorem aggregation_order_independent (grs1 grs2 : List GradedRow)
    (h : grs1.Perm grs2) :
    (aggregate grs1).toSummaryImp = (aggregate grs2).toSummaryImp ∧
    fpSummaryOfGraded grs1 = fpSummaryOfGraded grs2 :=
  ⟨by rw [aggregate_perm h], fpSummaryOfGraded_perm h⟩

/-- C7 (witness): swapping two concrete graded records (one valid, one
invalid) leaves both summaries unchanged. -/
theorem aggregation_order_independent_witness :
    (aggregate [{ name := "Alice", classId := "A02", subject := "Science",
                  score := some (PyFloat.finite 90), grade := "A" },
                { name := "Bob", classId := "A01", subject := "English",
                  score := none, grade := "Error" }]).toSummaryImp =
      (aggregate [{ name := "Bob", classId := "A01", subject := "English",
                    score := none, grade := "Error" },
                  { name := "Alice", classId := "A02", subject := "Science",
                    score := some (PyFloat.finite 90), grade := "A" }]).toSummaryImp ∧
    fpSummaryOfGraded [{ name := "Alice", classId := "A02", subject := "Science",
                         score := some (PyFloat.finite 90), grade := "A" },
                       { name := "Bob", classId := "A01", subject := "English",
                         score := none, grade := "Error" }] =
      fpSummaryOfGraded [{ name := "Bob", classId := "A01", subject := "English",
                           score := none, grade := "Error" },
                         { name := "Alice", classId := "A02", subject := "Science",
                           score := some (PyFloat.finite 90), grade := "A" }] :=
  aggregation_order_independent _ _ (by decide)

/-- C8: aggregating the concatenation of two sequences of graded records
equals the pairwise merge of the two separate aggregations: the overall
total and count, every class and subject dictionary entry, and the row
count (hence the valid and invalid counts) all add up.  Disjointness of
the two sequences is not needed. -/
theorem optAccF_merge (o : Option PyFloat) (l : List PyFloat) :
    optAccF o l = mergeOptF o (optAccF none l) := by
  cases o <;> cases l <;> simp [optAccF, mergeOptF]

theorem optAccN_merge (o : Option ℕ) (n : ℕ) :
    optAccN o n = mergeOptN o (optAccN none n) := by
  cases o <;> cases n <;> simp [optAccN, mergeOptN]

theorem aggregate_append_merge (xs ys : List GradedRow) :
    aggregate (xs ++ ys) = mergeAcc (aggregate xs) (aggregate ys) := by
  refine AggAcc.ext ?_ ?_ ?_ ?_ ?_ ?_ ?_
  · simp only [aggregate, List.foldl_append, agg_overallTotal, mergeAcc, emptyAcc]
    simp
  · simp only [aggregate, List.foldl_append, agg_overallCount, mergeAcc, emptyAcc]
    simp
  · funext k
    simp only [aggregate, List.foldl_append, agg_classTotals, mergeAcc, emptyAcc]
    rw [optAccF_merge]
  · funext k
    simp only [aggregate, List.foldl_append, agg_classCounts, mergeAcc, emptyAcc]
    rw [optAccN_merge]
  · funext k
    simp only [aggregate, List.foldl_append, agg_subjectTotals, mergeAcc, emptyAcc]
    rw [optAccF_merge]
  · funext k
    simp only [aggregate, List.foldl_append, agg_subjectCounts, mergeAcc, emptyAcc]
    rw [optAccN_merge]
  · simp only [aggregate, List.foldl_append, agg_totalCount, mergeAcc, emptyAcc]
    simp [Nat.add_assoc]

/-- C9: in the functional implementation, a record whose raw score parses
to NaN is graded as if valid but aggregated as if invalid: `clean_score`
returns NaN (not `None`), `calculate_grade` gives `"F"` (not `"Error"`),
yet the `notna` filter drops the record, so the valid count, the overall
mean and every class and subject mean are exactly what they would be
without the record. -/
theorem fp_nan_graded_valid_aggregated_invalid (r : Record)
    (pre post : List Record) (h : clean_score r.rawScore = some PyFloat.nan) :
    (gradeRow r).score = some PyFloat.nan ∧
    (gradeRow r).grade = "F" ∧
    (fpSummary (pre ++ r :: post)).validCount = (fpSummary (pre ++ post)).validCount ∧
    (fpSummary (pre ++ r :: post)).overallMean = (fpSummary (pre ++ post)).overallMean ∧
    (fpSummary (pre ++ r :: post)).classMeans = (fpSummary (pre ++ post)).classMeans ∧
    (fpSummary (pre ++ r :: post)).subjectMeans = (fpSummary (pre ++ post)).subjectMeans := by
  have hv := filter_valid_append_nan r pre post h
  refine ⟨by rw [gradeRow_score, h], ?_, ?_, ?_, ?_, ?_⟩
  · show calculate_grade (clean_score r.rawScore) = "F"
    rw [h]
    simp [calculate_grade, PyFloat.ge]
  · show (filter_valid_scores (add_grade_column (pre ++ r :: post))).length = _
    rw [hv]
    rfl
  · show seriesMean ((filter_valid_scores (add_grade_column (pre ++ r :: post))).map
        (fun x => x.score)) = _
    rw [hv]
    rfl
  · show calculate_group_average
        (filter_valid_scores (add_grade_column (pre ++ r :: post)))
        (fun x => x.classId) = _
    rw [hv]
    rfl
  · show calculate_group_average
        (filter_valid_scores (add_grade_column (pre ++ r :: post)))
        (fun x => x.subject) = _
    rw [hv]
    rfl

/-- C9 (witness): the concrete string "nan" parses to NaN, Carl's record
is graded F, and on the concrete two-row input his row contributes to no
count or mean. -/
theorem fp_nan_graded_valid_aggregated_invalid_witness :
    clean_score (PyValue.str "nan") = some PyFloat.nan ∧
    (gradeRow { name := "Carl", classId := "A01", subject := "Math",
                rawScore := PyValue.str "nan" }).grade = "F" ∧
    (fpSummary ([{ name := "Alice", classId := "A02", subject := "Science",
                   rawScore := PyValue.str "90" }] ++
        { name := "Carl", classId := "A01", subject := "Math",
          rawScore := PyValue.str "nan" } :: [])).validCount =
      (fpSummary ([{ name := "Alice", classId := "A02", subject := "Science",
                     rawScore := PyValue.str "90" }] ++ [])).validCount :=
  ⟨by decide,
   (fp_nan_graded_valid_aggregated_invalid
      { name := "Carl", classId := "A01", subject := "Math",
        rawScore := PyValue.str "nan" }
      [{ name := "Alice", classId := "A02", subject := "Science",
         rawScore := PyValue.str "90" }] [] (by decide)).2.1,
   (fp_nan_graded_valid_aggregated_invalid
      { name := "Carl", classId := "A01", subject := "Math",
        rawScore := PyValue.str "nan" }
      [{ name := "Alice", classId := "A02", subject := "Science",
         rawScore := PyValue.str "90" }] [] (by decide)).2.2.1⟩

/-- C10: in the imperative loop, a row whose score fails to parse is still
turned into a student record using the loop variable `score`, which at
that point holds the most recently parsed score (first conjunct); if no
earlier row parsed, the record construction raises `NameError` (second
conjunct), in particular whenever the very first row is unparseable (third
conjunct); and across any successful run the variable indeed tracks the
most recent successfully parsed score (fourth conjunct). -/
theorem imperative_stale_score_and_name_error :
    (∀ (st : ImpState) (r : Record) (v : PyFloat),
      pythonFloat r.rawScore = .error .valueError → st.lastScore = some v →
      impStep st r = Except.ok
        { studentsData := st.studentsData ++
            [{ name := r.name, classId := r.classId, subject := r.subject,
               score := v, grade := "Error" }]
          acc := accSkip st.acc
          lastScore := some v }) ∧
    (∀ (st : ImpState) (r : Record),
      pythonFloat r.rawScore = .error .valueError → st.lastScore = none →
      impStep st r = Except.error PyError.nameError) ∧
    (∀ (r : Record) (rows : List Record),
      pythonFloat r.rawScore = .error .valueError →
      impRun (r :: rows) = Except.error PyError.nameError) ∧
    (∀ (rows : List Record) (st' : ImpState),
      impRun rows = Except.ok st' → st'.lastScore = lastParsedFrom none rows) := by
  refine ⟨?_, ?_, ?_, ?_⟩
  · intro st r v hp hl
    simp [impStep, tryFloatImp, hp, hl]
  · intro st r hp hl
    simp [impStep, tryFloatImp, hp, hl]
  · intro r rows hp
    rw [impRun, impRunFrom, List.foldlM_cons,
      show impStep initState r = Except.error PyError.nameError by
        simp [impStep, tryFloatImp, hp, initState],
      except_bind_error]
  · intro rows st' h
    exact impRunFrom_lastScore rows initState st' h

/-- C10 (witness): with the previous row's score 90 bound, Bob's
unparseable row produces a record carrying the stale 90 and grade Error;
and when the unparseable row comes first, the run dies with `NameError`. -/
theorem imperative_stale_score_and_name_error_witness :
    impStep { studentsData := [], acc := emptyAcc,
              lastScore := some (PyFloat.finite 90) }
        { name := "Bob", classId := "A01", subject := "English",
          rawScore := PyValue.str "SomeError" } =
      Except.ok
        { studentsData := ([] : List StudentRec) ++
            [{ name := "Bob", classId := "A01", subject := "English",
               score := PyFloat.finite 90, grade := "Error" }]
          acc := accSkip emptyAcc
          lastScore := some (PyFloat.finite 90) } ∧
    impRun [{ name := "Bob", classId := "A01", subject := "English",
              rawScore := PyValue.str "SomeError" }] =
      Except.error PyError.nameError :=
  ⟨imperative_stale_score_and_name_error.1
      { studentsData := [], acc := emptyAcc, lastScore := some (PyFloat.finite 90) }
      { name := "Bob", classId := "A01", subject := "English",
        rawScore := PyValue.str "SomeError" }
      (PyFloat.finite 90) rfl rfl,
   imperative_stale_score_and_name_error.2.2.1
      { name := "Bob", classId := "A01", subject := "English",
        rawScore := PyValue.str "SomeError" }
      [] rfl⟩
